import Mathlib

set_option maxRecDepth 8000

/-!
Shallow embedding of `src/universal_radix_sort.hpp` (class `radix::UniversalRadixSort<T>`).

Modelling conventions:
* A record is its raw memory image: a list of byte values (`List Nat`, each < 256),
  lowest memory address first.  An array of `n` records of width `W = sizeof(T)`
  is a `List (List Nat)` of length `n` whose members have length `W`.
* The C++ union reinterpretations (`float` ↔ `uint32_t`, `double` ↔ `uint64_t`)
  become the little-endian conversions `bytesToNat` / `natToBytes`; the bit
  transforms are stated on the reinterpreted `Nat` value, exactly as the source
  manipulates the `uint32_t`/`uint64_t` member of the union.
* A possibly-null `T*` argument becomes `Option (List (List Nat))`; `none` is the
  null pointer.  `sort` returns the raised error (if any) together with the final
  contents of the caller's buffer.
* `new T[n]` yields uninitialized storage; the scratch buffer's initial contents
  are therefore an explicit parameter `temp0`, and a failing allocation is the
  explicit parameter `alloc_ok = false`.
* `std::sort` is specified only up to the comparator; it is modelled by the
  deterministic comparison sort `stdSort` (insertion sort) that consults exactly
  the given comparator.  `sizeof(float) = 4` and `sizeof(double) = 8` on the
  target platform.
-/

namespace RadixSort

/-- DataType enum of the source (universal_radix_sort.hpp lines 44-49). -/
inductive DataType where
  | UNSIGNED_OR_STRING
  | SIGNED_INTEGER
  | IEEE754_FLOAT
  | IEEE754_DOUBLE
deriving DecidableEq

/-- Direction enum (lines 54-57). -/
inductive Direction where
  | ASCENDING
  | DESCENDING
deriving DecidableEq

/-- ProcessingOrder enum (lines 62-65). -/
inductive ProcessingOrder where
  | LSB_FIRST
  | MSB_FIRST
deriving DecidableEq

/-- ErrorCode enum (lines 70-77); SUCCESS is represented by `none`. -/
inductive ErrorCode where
  | NULL_POINTER
  | INVALID_ELEMENT_SIZE
  | MEMORY_ALLOCATION
  | UNSUPPORTED_DATA_TYPE
deriving DecidableEq

/-- Little-endian value of a byte list, mirroring how the union members
`FloatConverter.u32` / `DoubleConverter.u64` read the record's memory image. -/
def bytesToNat : List Nat → Nat
  | [] => 0
  | b :: bs => b + 256 * bytesToNat bs

/-- Little-endian byte image (width `w`) of a value, the inverse reinterpretation. -/
def natToBytes : Nat → Nat → List Nat
  | 0, _ => []
  | w + 1, v => (v % 256) :: natToBytes w (v / 256)

/-- The body of `validate_data_type` (lines 184-208): FLOAT requires
`element_size == sizeof(float) = 4`, DOUBLE requires `8`; SIGNED_INTEGER and
UNSIGNED_OR_STRING have no size requirement.  The `default:` branch raising
UNSUPPORTED_DATA_TYPE is unreachable for the four in-range enum values. -/
def validate_data_type (dt : DataType) (w : Nat) : Option ErrorCode :=
  match dt with
  | DataType.IEEE754_FLOAT =>
      if w = 4 then none else some ErrorCode.INVALID_ELEMENT_SIZE
  | DataType.IEEE754_DOUBLE =>
      if w = 8 then none else some ErrorCode.INVALID_ELEMENT_SIZE
  | DataType.SIGNED_INTEGER => none
  | DataType.UNSIGNED_OR_STRING => none

/-- Per-record action of `flip_msb_for_signed_types` (lines 326-334):
`bytes[i*sizeof(T) + (sizeof(T)-1)] ^= 0x80`, i.e. XOR `0x80` into the byte at
offset `w - 1` of the record. -/
def flip_msb_record (w : Nat) (r : List Nat) : List Nat :=
  r.set (w - 1) (r.getD (w - 1) 0 ^^^ 128)

/-- Whole-array `flip_msb_for_signed_types` (lines 326-334). -/
def flip_msb_for_signed_types (w : Nat) (arr : List (List Nat)) : List (List Nat) :=
  arr.map (flip_msb_record w)

/-- The `uint32_t` branch logic of `float_pre_post_processing` (lines 343-374),
acting on the reinterpreted 32-bit pattern: pre-process complements negative
patterns (sign bit set) and flips only the sign bit of non-negative ones;
post-process re-examines the current sign bit and undoes the matching case.
`u & 0x80000000` being nonzero is exactly `u.testBit 31`; `~u` on a `uint32_t`
is XOR with `0xFFFFFFFF = 2^32 - 1`. -/
def float_bits_transform (is_pre_process : Bool) (u : Nat) : Nat :=
  if is_pre_process then
    if u.testBit 31 then u ^^^ (2 ^ 32 - 1) else u ^^^ 2 ^ 31
  else
    if u.testBit 31 then u ^^^ 2 ^ 31 else u ^^^ (2 ^ 32 - 1)

/-- The `uint64_t` branch logic of `double_pre_post_processing` (lines 383-414). -/
def double_bits_transform (is_pre_process : Bool) (u : Nat) : Nat :=
  if is_pre_process then
    if u.testBit 63 then u ^^^ (2 ^ 64 - 1) else u ^^^ 2 ^ 63
  else
    if u.testBit 63 then u ^^^ 2 ^ 63 else u ^^^ (2 ^ 64 - 1)

/-- Per-record action of `float_pre_post_processing`: reinterpret the 4 record
bytes as `uint32_t`, transform, write the 4 bytes back. -/
def float_record (is_pre_process : Bool) (r : List Nat) : List Nat :=
  natToBytes 4 (float_bits_transform is_pre_process (bytesToNat r))

/-- Per-record action of `double_pre_post_processing`: reinterpret the 8 record
bytes as `uint64_t`, transform, write the 8 bytes back. -/
def double_record (is_pre_process : Bool) (r : List Nat) : List Nat :=
  natToBytes 8 (double_bits_transform is_pre_process (bytesToNat r))

/-- Whole-array `float_pre_post_processing` (lines 343-374). -/
def float_pre_post_processing (is_pre_process : Bool) (arr : List (List Nat)) :
    List (List Nat) :=
  arr.map (float_record is_pre_process)

/-- Whole-array `double_pre_post_processing` (lines 383-414). -/
def double_pre_post_processing (is_pre_process : Bool) (arr : List (List Nat)) :
    List (List Nat) :=
  arr.map (double_record is_pre_process)

/-- The `pre_process_data` dispatch (lines 282-296); returns the processed array
together with the `need_post_processing` flag it returns in the source. -/
def pre_process_data (dt : DataType) (w : Nat) (arr : List (List Nat)) :
    List (List Nat) × Bool :=
  match dt with
  | DataType.IEEE754_FLOAT => (float_pre_post_processing true arr, true)
  | DataType.IEEE754_DOUBLE => (double_pre_post_processing true arr, true)
  | DataType.SIGNED_INTEGER => (flip_msb_for_signed_types w arr, true)
  | DataType.UNSIGNED_OR_STRING => (arr, false)

/-- The `post_process_data` dispatch (lines 304-318). -/
def post_process_data (dt : DataType) (w : Nat) (arr : List (List Nat)) :
    List (List Nat) :=
  match dt with
  | DataType.IEEE754_FLOAT => float_pre_post_processing false arr
  | DataType.IEEE754_DOUBLE => double_pre_post_processing false arr
  | DataType.SIGNED_INTEGER => flip_msb_for_signed_types w arr
  | DataType.UNSIGNED_OR_STRING => arr

/-- Byte of a record at offset `byte_index`: `bytes[i * sizeof(T) + byte_index]`. -/
def byteOf (byte_index : Nat) (r : List Nat) : Nat :=
  r.getD byte_index 0

/-- The histogram built by the first loop of `counting_sort_byte` (lines 431-434):
`count[b]` = number of records whose byte at `byte_index` equals `b`. -/
def histogram (byte_index : Nat) (arr : List (List Nat)) (b : Nat) : Nat :=
  (arr.filter (fun r => byteOf byte_index r == b)).length

/-- The prefix-sum table after the second loop of `counting_sort_byte`
(lines 437-439): cumulative count up to and including byte value `b`. -/
def prefixCount (byte_index : Nat) (arr : List (List Nat)) (b : Nat) : Nat :=
  ((List.range (b + 1)).map (histogram byte_index arr)).sum

/-- The index sequence of the placement loop `for (size_t i = n; --i > 0;)`
(line 443): the body runs for `i = n-1, n-2, ..., 1` and never for `i = 0`. -/
def placementIndices (n : Nat) : List Nat :=
  (List.range n).reverse.dropLast

/-- The placement loop body of `counting_sort_byte` (lines 443-448): for each
index `i` in turn, read the key byte, decrement its bucket boundary and store
the record at the resulting slot of the scratch buffer. -/
def csbLoop (byte_index : Nat) (arr : List (List Nat)) :
    List Nat → (Nat → Nat) → List (List Nat) → List (List Nat)
  | [], _, temp => temp
  | i :: rest, cnt, temp =>
      let r := arr.getD i []
      let b := byteOf byte_index r
      csbLoop byte_index arr rest
        (fun x => if x = b then cnt b - 1 else cnt x)
        (temp.set (cnt b - 1) r)

/-- One pass of `counting_sort_byte` (lines 424-452).  The final
`memcpy(array, temp_array, ...)` makes the array equal to the scratch buffer,
so the pass returns the scratch buffer's final contents. -/
def counting_sort_byte (byte_index : Nat) (arr temp : List (List Nat)) :
    List (List Nat) :=
  csbLoop byte_index arr (placementIndices arr.length) (prefixCount byte_index arr) temp

/-- The main sorting loop of `sort` (lines 142-152): one `counting_sort_byte`
pass per byte offset.  After each pass the array and the scratch buffer hold the
same bytes (the pass ends with `memcpy(array, temp_array, ...)`), so both are
threaded as the pass result. -/
def sortPasses : List Nat → List (List Nat) → List (List Nat) → List (List Nat)
  | [], arr, _ => arr
  | bi :: rest, arr, temp =>
      let arr' := counting_sort_byte bi arr temp
      sortPasses rest arr' arr'

/-- The C `strncmp(a, b, n)` on byte lists: compare at most `n` bytes as
unsigned values, stopping early at the first differing byte or at a zero byte
that both strings share.  Only the `Ordering` (sign of the C result) is kept. -/
def strncmp : Nat → List Nat → List Nat → Ordering
  | 0, _, _ => Ordering.eq
  | _ + 1, [], [] => Ordering.eq
  | _ + 1, [], _ :: _ => Ordering.lt
  | _ + 1, _ :: _, [] => Ordering.gt
  | n + 1, x :: xs, y :: ys =>
      if x < y then Ordering.lt
      else if y < x then Ordering.gt
      else if x = 0 then Ordering.eq
      else strncmp n xs ys

/-- The ascending comparator of `radix_sort_strings` (lines 464-466):
`strncmp(a, b, element_size) < 0`. -/
def comparator (w : Nat) (a b : List Nat) : Bool :=
  decide (strncmp w a b = Ordering.lt)

/-- The descending comparator of `radix_sort_strings` (lines 480-482):
`!comparator(a, b) && a != b`, where `a != b` compares the two record
pointers; a pointer `&array[i * element_size]` is modelled by its record
index, so pointer inequality is index inequality. -/
def desc_comparator (w : Nat) (p q : Nat × List Nat) : Bool :=
  !comparator w p.2 q.2 && !decide (p.1 = q.1)

/-- Insertion step of the deterministic model of `std::sort`. -/
def stdInsert (lt : α → α → Bool) (x : α) : List α → List α
  | [] => [x]
  | y :: ys => if lt x y then x :: y :: ys else y :: stdInsert lt x ys

/-- Deterministic model of `std::sort(first, last, comp)`: a comparison sort
(insertion sort) that consults exactly the supplied comparator.  `std::sort`
itself fixes the result only up to comparator-equivalent elements. -/
def stdSort (lt : α → α → Bool) : List α → List α
  | [] => []
  | x :: xs => stdInsert lt x (stdSort lt xs)

/-- The body of `radix_sort_strings` (lines 461-493): build the pointer index
`&array[i * element_size]` (modelled as the record index paired with the record
bytes), sort it with `std::sort` under the ascending or descending comparator,
then materialize the records in sorted pointer order. -/
def radix_sort_strings (dir : Direction) (w : Nat) (arr : List (List Nat)) :
    List (List Nat) :=
  let pointers := arr.enum
  let sorted :=
    if dir = Direction.ASCENDING then
      stdSort (fun p q => comparator w p.2 q.2) pointers
    else
      stdSort (fun p q => desc_comparator w p q) pointers
  sorted.map Prod.snd

/-- The in-place `reverse_array` (lines 501-505): swap `array[i]` and
`array[n-1-i]` for `i < n / 2`, i.e. reverse the list of records. -/
def reverse_array (arr : List (List Nat)) : List (List Nat) :=
  arr.reverse

/-- The entry point `sort(T*, size_t)` (lines 114-164), statement by statement:
null check, `n <= 1` early return, `validate_data_type(sizeof(T))`,
`pre_process_data`, the UNSIGNED_OR_STRING/MSB_FIRST string branch,
scratch-buffer allocation, the per-byte pass loop (whose two branches are
identical in the source), `post_process_data`, and the final reversal for
descending non-string sorts.  `input = none` is a null `array`; `n` is the
element count (callers pass the buffer's true length); `alloc_ok = false`
makes `new T[n]` fail; `temp0` is the indeterminate initial content of the
freshly allocated scratch buffer.  Returns the raised error (`none` on
success) and the final contents of the caller's buffer. -/
def sort (dt : DataType) (ord : ProcessingOrder) (dir : Direction) (w : Nat)
    (input : Option (List (List Nat))) (n : Nat) (alloc_ok : Bool)
    (temp0 : List (List Nat)) : Option ErrorCode × Option (List (List Nat)) :=
  match input with
  | none => (some ErrorCode.NULL_POINTER, none)
  | some arr =>
      if n ≤ 1 then (none, some arr)
      else
        match validate_data_type dt w with
        | some e => (some e, some arr)
        | none =>
            let pre := pre_process_data dt w arr
            if dt = DataType.UNSIGNED_OR_STRING ∧ ord = ProcessingOrder.MSB_FIRST then
              (none, some (radix_sort_strings dir w pre.1))
            else if alloc_ok then
              let sorted :=
                if ord = ProcessingOrder.LSB_FIRST then
                  sortPasses (List.range w) pre.1 temp0
                else
                  sortPasses (List.range w) pre.1 temp0
              let posted := if pre.2 then post_process_data dt w sorted else sorted
              let final :=
                if dir = Direction.DESCENDING ∧ dt ≠ DataType.UNSIGNED_OR_STRING then
                  reverse_array posted
                else posted
              (none, some final)
            else (some ErrorCode.MEMORY_ALLOCATION, some pre.1)

/-- Modelled from the spec's words (§4.4, claim comparison order): the
full-stride comparison "equivalent to an unsigned byte-wise memcmp over all W
bytes", which does not stop at embedded zero bytes.  Used only to state the
order the spec claims, to be compared with the code's behaviour. -/
def specMemcmp : Nat → List Nat → List Nat → Ordering
  | 0, _, _ => Ordering.eq
  | _ + 1, [], [] => Ordering.eq
  | _ + 1, [], _ :: _ => Ordering.lt
  | _ + 1, _ :: _, [] => Ordering.gt
  | n + 1, x :: xs, y :: ys =>
      if x < y then Ordering.lt
      else if y < x then Ordering.gt
      else specMemcmp n xs ys

/-- Modelled from the spec's words (§3, "signed integer order"): the
two's-complement value of a `w`-byte little-endian record, the natural order the
spec claims for SIGNED_INTEGER records. -/
def specSignedValue (w : Nat) (r : List Nat) : Int :=
  if (bytesToNat r).testBit (8 * w - 1) then (bytesToNat r : Int) - 2 ^ (8 * w)
  else (bytesToNat r : Int)

/-! Helper lemmas about the byte-level primitives. -/

theorem placementIndices_succ (n : Nat) (h : 1 ≤ n) :
    placementIndices (n + 1) = n :: placementIndices n := by
  unfold placementIndices
  rw [List.range_succ, List.reverse_append, List.reverse_singleton,
    List.singleton_append]
  have hne : (List.range n).reverse ≠ [] := by
    simp [List.reverse_eq_nil_iff, List.range_eq_nil]
    omega
  obtain ⟨m, l', hl⟩ := List.exists_cons_of_ne_nil hne
  rw [hl, List.dropLast_cons₂]

theorem zero_not_mem_placementIndices : ∀ n : Nat, 0 ∉ placementIndices n := by
  intro n
  induction n with
  | zero => simp [placementIndices]
  | succ k ih =>
      cases k with
      | zero => simp [placementIndices]
      | succ j =>
          rw [placementIndices_succ (j + 1) (by omega)]
          simp only [List.mem_cons, not_or]
          exact ⟨by omega, ih⟩

theorem length_placementIndices (n : Nat) : (placementIndices n).length = n - 1 := by
  simp [placementIndices]

theorem set_getD_self (l : List Nat) : ∀ i : Nat, l.set i (l.getD i 0) = l := by
  induction l with
  | nil => intro i; rfl
  | cons x xs ih =>
      intro i
      cases i with
      | zero => rfl
      | succ j => simpa [List.set, List.getD] using ih j

theorem getD_set_self (l : List Nat) (i : Nat) (x : Nat) (h : i < l.length) :
    (l.set i x).getD i 0 = x := by
  rw [List.getD_eq_getElem?_getD, List.getElem?_set_self h]
  rfl

theorem xor_xor_cancel (u m : Nat) : u ^^^ m ^^^ m = u := by
  rw [Nat.xor_assoc, Nat.xor_self, Nat.xor_zero]

theorem bytesToNat_lt (r : List Nat) (h : ∀ b ∈ r, b < 256) :
    bytesToNat r < 256 ^ r.length := by
  induction r with
  | nil => simp [bytesToNat]
  | cons b bs ih =>
      have hb : b < 256 := h b (List.mem_cons_self b bs)
      have hbs := ih (fun x hx => h x (List.mem_cons_of_mem b hx))
      simp only [bytesToNat, List.length_cons, pow_succ]
      calc b + 256 * bytesToNat bs < 256 + 256 * bytesToNat bs := by omega
        _ ≤ 256 * 256 ^ bs.length := by
            have : bytesToNat bs + 1 ≤ 256 ^ bs.length := hbs
            nlinarith
        _ = 256 ^ bs.length * 256 := by ring

theorem bytesToNat_natToBytes : ∀ (w v : Nat), v < 256 ^ w →
    bytesToNat (natToBytes w v) = v := by
  intro w
  induction w with
  | zero =>
      intro v hv
      have hv0 : v = 0 := by simpa using hv
      subst hv0; rfl
  | succ k ih =>
      intro v hv
      have hdiv : v / 256 < 256 ^ k := by
        rw [Nat.div_lt_iff_lt_mul (by omega)]
        calc v < 256 ^ (k + 1) := hv
          _ = 256 ^ k * 256 := by ring
      simp only [natToBytes, bytesToNat, ih (v / 256) hdiv]
      exact Nat.mod_add_div v 256

theorem natToBytes_bytesToNat : ∀ (r : List Nat) (w : Nat), r.length = w →
    (∀ b ∈ r, b < 256) → natToBytes w (bytesToNat r) = r := by
  intro r
  induction r with
  | nil => intro w hw _; subst hw; rfl
  | cons b bs ih =>
      intro w hw hb
      subst hw
      have hblt : b < 256 := hb b (List.mem_cons_self b bs)
      have h1 : (b + 256 * bytesToNat bs) % 256 = b := by
        rw [Nat.add_mul_mod_self_left]
        exact Nat.mod_eq_of_lt hblt
      have h2 : (b + 256 * bytesToNat bs) / 256 = bytesToNat bs := by
        rw [Nat.add_mul_div_left _ _ (by omega : 0 < 256),
          Nat.div_eq_of_lt hblt, Nat.zero_add]
      simp only [List.length_cons, natToBytes, bytesToNat, h1, h2]
      rw [ih bs.length rfl (fun x hx => hb x (List.mem_cons_of_mem b hx))]

theorem flip_msb_record_involutive (w : Nat) :
    Function.Involutive (flip_msb_record w) := by
  intro r
  unfold flip_msb_record
  by_cases h : w - 1 < r.length
  · rw [getD_set_self r (w - 1) _ h, xor_xor_cancel, List.set_set]
    exact set_getD_self r (w - 1)
  · have h1 : r.set (w - 1) (r.getD (w - 1) 0 ^^^ 128) = r :=
      List.set_eq_of_length_le (by omega)
    rw [h1]
    exact h1

theorem float_bits_roundtrip (u : Nat) :
    float_bits_transform false (float_bits_transform true u) = u ∧
    float_bits_transform true (float_bits_transform false u) = u := by
  have hM : Nat.testBit 4294967295 31 = true := by decide
  have hS : Nat.testBit 2147483648 31 = true := by decide
  constructor <;> by_cases h : u.testBit 31 <;>
    simp [float_bits_transform, h, Nat.testBit_xor, hM, hS, Bool.xor_true,
      xor_xor_cancel]

theorem double_bits_roundtrip (u : Nat) :
    double_bits_transform false (double_bits_transform true u) = u ∧
    double_bits_transform true (double_bits_transform false u) = u := by
  have hM : Nat.testBit 18446744073709551615 63 = true := by decide
  have hS : Nat.testBit 9223372036854775808 63 = true := by decide
  constructor <;> by_cases h : u.testBit 63 <;>
    simp [double_bits_transform, h, Nat.testBit_xor, hM, hS, Bool.xor_true,
      xor_xor_cancel]

theorem float_bits_lt (b : Bool) (u : Nat) (h : u < 2 ^ 32) :
    float_bits_transform b u < 2 ^ 32 := by
  unfold float_bits_transform
  split_ifs <;> exact Nat.xor_lt_two_pow h (by norm_num)

theorem double_bits_lt (b : Bool) (u : Nat) (h : u < 2 ^ 64) :
    double_bits_transform b u < 2 ^ 64 := by
  unfold double_bits_transform
  split_ifs <;> exact Nat.xor_lt_two_pow h (by norm_num)

theorem float_record_roundtrip (r : List Nat) (hlen : r.length = 4)
    (hb : ∀ b ∈ r, b < 256) : float_record false (float_record true r) = r := by
  have hpow : (256 : Nat) ^ 4 = 2 ^ 32 := by norm_num
  have h1 : bytesToNat r < 2 ^ 32 := by
    have := bytesToNat_lt r hb
    rw [hlen, hpow] at this
    exact this
  have h2 : float_bits_transform true (bytesToNat r) < 256 ^ 4 := by
    rw [hpow]
    exact float_bits_lt true _ h1
  unfold float_record
  rw [bytesToNat_natToBytes 4 _ h2, (float_bits_roundtrip (bytesToNat r)).1]
  exact natToBytes_bytesToNat r 4 hlen hb

theorem double_record_roundtrip (r : List Nat) (hlen : r.length = 8)
    (hb : ∀ b ∈ r, b < 256) : double_record false (double_record true r) = r := by
  have hpow : (256 : Nat) ^ 8 = 2 ^ 64 := by norm_num
  have h1 : bytesToNat r < 2 ^ 64 := by
    have := bytesToNat_lt r hb
    rw [hlen, hpow] at this
    exact this
  have h2 : double_bits_transform true (bytesToNat r) < 256 ^ 8 := by
    rw [hpow]
    exact double_bits_lt true _ h1
  unfold double_record
  rw [bytesToNat_natToBytes 8 _ h2, (double_bits_roundtrip (bytesToNat r)).1]
  exact natToBytes_bytesToNat r 8 hlen hb

/-! Helper lemmas about `strncmp`. -/

theorem strncmp_refl : ∀ (n : Nat) (a : List Nat), strncmp n a a = Ordering.eq := by
  intro n
  induction n with
  | zero => intro a; rfl
  | succ k ih =>
      intro a
      cases a with
      | nil => rfl
      | cons x xs =>
          by_cases h0 : x = 0 <;> simp [strncmp, Nat.lt_irrefl, h0, ih]

theorem strncmp_swap : ∀ (n : Nat) (a b : List Nat),
    strncmp n b a = (strncmp n a b).swap := by
  intro n
  induction n with
  | zero => intro a b; rfl
  | succ k ih =>
      intro a b
      cases a with
      | nil =>
          cases b with
          | nil => rfl
          | cons y ys => rfl
      | cons x xs =>
          cases b with
          | nil => rfl
          | cons y ys =>
              by_cases h1 : x < y
              · have h2 : ¬ y < x := by omega
                simp [strncmp, h1, h2, Ordering.swap]
              · by_cases h2 : y < x
                · simp [strncmp, h1, h2, Ordering.swap]
                · have hxy : x = y := by omega
                  subst hxy
                  by_cases h0 : x = 0
                  · simp [strncmp, Nat.lt_irrefl, h0, Ordering.swap]
                  · simp only [strncmp, Nat.lt_irrefl, h0, if_false]
                    exact ih xs ys

theorem strncmp_lt_trans : ∀ (n : Nat) (a b c : List Nat),
    strncmp n a b = Ordering.lt → strncmp n b c = Ordering.lt →
    strncmp n a c = Ordering.lt := by
  intro n
  induction n with
  | zero =>
      intro a b c h1 _
      simp [strncmp] at h1
  | succ k ih =>
      intro a b c h1 h2
      cases a with
      | nil =>
          cases b with
          | nil => simp [strncmp] at h1
          | cons y ys =>
              cases c with
              | nil => simp [strncmp] at h2
              | cons z zs => rfl
      | cons x xs =>
          cases b with
          | nil => simp [strncmp] at h1
          | cons y ys =>
              cases c with
              | nil => simp [strncmp] at h2
              | cons z zs =>
                  by_cases hxy : x < y
                  · by_cases hyz : y < z
                    · simp [strncmp, show x < z by omega]
                    · by_cases hzy : z < y
                      · simp [strncmp, hyz, hzy] at h2
                      · have : y = z := by omega
                        subst this
                        simp [strncmp, show x < y by omega]
                  · by_cases hyx : y < x
                    · simp [strncmp, hxy, hyx] at h1
                    · have hxyeq : x = y := by omega
                      subst hxyeq
                      by_cases h0 : x = 0
                      · simp [strncmp, Nat.lt_irrefl, h0] at h1
                      · have hab : strncmp k xs ys = Ordering.lt := by
                          simpa [strncmp, Nat.lt_irrefl, h0] using h1
                        by_cases hxz : x < z
                        · simp [strncmp, hxz]
                        · by_cases hzx : z < x
                          · simp [strncmp, hxz, hzx] at h2
                          · have : x = z := by omega
                            subst this
                            have hbc : strncmp k ys zs = Ordering.lt := by
                              simpa [strncmp, Nat.lt_irrefl, h0] using h2
                            simp [strncmp, Nat.lt_irrefl, h0, ih _ _ _ hab hbc]

theorem strncmp_gt_iff (n : Nat) (a b : List Nat) :
    strncmp n a b = Ordering.gt ↔ strncmp n b a = Ordering.lt := by
  rw [strncmp_swap n a b]
  cases strncmp n a b <;> simp [Ordering.swap]

theorem strncmp_eq_iff (n : Nat) (a b : List Nat) :
    strncmp n a b = Ordering.eq ↔ strncmp n b a = Ordering.eq := by
  rw [strncmp_swap n a b]
  cases strncmp n a b <;> simp [Ordering.swap]

theorem strncmp_gt_trans (n : Nat) (a b c : List Nat)
    (h1 : strncmp n a b = Ordering.gt) (h2 : strncmp n b c = Ordering.gt) :
    strncmp n a c = Ordering.gt := by
  rw [strncmp_gt_iff] at h1 h2 ⊢
  exact strncmp_lt_trans n c b a h2 h1

/-! Helper lemmas about the `std::sort` model. -/

theorem stdInsert_perm (lt : α → α → Bool) (x : α) :
    ∀ l : List α, List.Perm (stdInsert lt x l) (x :: l) := by
  intro l
  induction l with
  | nil => exact List.Perm.refl _
  | cons y ys ih =>
      by_cases h : lt x y = true
      · rw [stdInsert, if_pos h]
      · rw [stdInsert, if_neg h]
        exact List.Perm.trans (ih.cons y) (List.Perm.swap x y ys)

theorem stdSort_perm (lt : α → α → Bool) :
    ∀ l : List α, List.Perm (stdSort lt l) l := by
  intro l
  induction l with
  | nil => exact List.Perm.refl _
  | cons x xs ih =>
      rw [stdSort]
      exact List.Perm.trans (stdInsert_perm lt x (stdSort lt xs)) (ih.cons x)

theorem stdInsert_pairwise (lt : α → α → Bool) (x : α) :
    ∀ l : List α, l.Pairwise (fun a b => lt b a = false) →
    (∀ b ∈ l, lt x b = true → lt b x = false) →
    (∀ b ∈ l, ∀ c ∈ l, lt b x = true → lt x c = true → lt b c = true) →
    (stdInsert lt x l).Pairwise (fun a b => lt b a = false) := by
  intro l
  induction l with
  | nil =>
      intro _ _ _
      exact List.pairwise_singleton _ x
  | cons y ys ih =>
      intro hl hasym htrans
      obtain ⟨hy, hys⟩ := List.pairwise_cons.mp hl
      by_cases hxy : lt x y = true
      · rw [stdInsert, if_pos hxy]
        refine List.pairwise_cons.mpr ⟨?_, hl⟩
        intro z hz
        rcases List.mem_cons.mp hz with rfl | hz'
        · exact hasym z (List.mem_cons_self z ys) hxy
        · by_cases hzx : lt z x = true
          · have := htrans z (List.mem_cons_of_mem y hz') y
              (List.mem_cons_self y ys) hzx hxy
            rw [hy z hz'] at this
            exact absurd this (by simp)
          · simpa using hzx
      · rw [stdInsert, if_neg hxy]
        refine List.pairwise_cons.mpr ⟨?_, ?_⟩
        · intro z hz
          have hz2 := (stdInsert_perm lt x ys).mem_iff.mp hz
          rcases List.mem_cons.mp hz2 with rfl | hz'
          · simpa using hxy
          · exact hy z hz'
        · exact ih hys
            (fun b hb hxb => hasym b (List.mem_cons_of_mem y hb) hxb)
            (fun b hb c hc h1 h2 => htrans b (List.mem_cons_of_mem y hb) c
              (List.mem_cons_of_mem y hc) h1 h2)

theorem stdSort_pairwise (lt : α → α → Bool) :
    ∀ l : List α,
    (∀ a ∈ l, ∀ b ∈ l, lt a b = true → lt b a = false) →
    (∀ a ∈ l, ∀ b ∈ l, ∀ c ∈ l, lt a b = true → lt b c = true → lt a c = true) →
    (stdSort lt l).Pairwise (fun a b => lt b a = false) := by
  intro l
  induction l with
  | nil => intro _ _; exact List.Pairwise.nil
  | cons x xs ih =>
      intro hasym htrans
      rw [stdSort]
      apply stdInsert_pairwise lt x (stdSort lt xs)
      · exact ih
          (fun a ha b hb h => hasym a (List.mem_cons_of_mem x ha) b
            (List.mem_cons_of_mem x hb) h)
          (fun a ha b hb c hc h1 h2 => htrans a (List.mem_cons_of_mem x ha) b
            (List.mem_cons_of_mem x hb) c (List.mem_cons_of_mem x hc) h1 h2)
      · intro b hb hxb
        have hb' := (stdSort_perm lt xs).mem_iff.mp hb
        exact hasym x (List.mem_cons_self x xs) b (List.mem_cons_of_mem x hb') hxb
      · intro b hb c hc h1 h2
        have hb' := (stdSort_perm lt xs).mem_iff.mp hb
        have hc' := (stdSort_perm lt xs).mem_iff.mp hc
        exact htrans b (List.mem_cons_of_mem x hb') x (List.mem_cons_self x xs) c
          (List.mem_cons_of_mem x hc') h1 h2

/-! Helper lemmas about the string-sorter comparators and pointer index. -/

theorem comparator_true_iff (w : Nat) (a b : List Nat) :
    comparator w a b = true ↔ strncmp w a b = Ordering.lt := by
  simp [comparator]

theorem comparator_false_iff (w : Nat) (a b : List Nat) :
    comparator w a b = false ↔ strncmp w a b ≠ Ordering.lt := by
  simp [comparator]

theorem desc_comparator_true_iff (w : Nat) (p q : Nat × List Nat) :
    desc_comparator w p q = true ↔
      (strncmp w p.2 q.2 ≠ Ordering.lt ∧ p.1 ≠ q.1) := by
  simp [desc_comparator, comparator]

theorem enum_pairwise_fst_lt (l : List α) :
    l.enum.Pairwise (fun p q => p.1 < q.1) := by
  rw [List.pairwise_iff_getElem]
  intro i j hi hj hij
  simp only [List.getElem_enum]
  exact hij

theorem enum_getElem? {l : List α} {p : Nat × α} (hp : p ∈ l.enum) :
    l[p.1]? = some p.2 := by
  obtain ⟨h1, h2⟩ := List.mem_enum (show (p.1, p.2) ∈ l.enum by rwa [Prod.mk.eta])
  rw [List.getElem?_eq_getElem h1, h2]

theorem enum_snd_eq_of_fst_eq {l : List α} {p q : Nat × α} (hp : p ∈ l.enum)
    (hq : q ∈ l.enum) (h : p.1 = q.1) : p.2 = q.2 := by
  have h1 := enum_getElem? hp
  have h2 := enum_getElem? hq
  rw [h, h2] at h1
  exact (Option.some.inj h1).symm

theorem pairwise_strncmp_ne_enum {w : Nat} {arr : List (List Nat)}
    (hd : arr.Pairwise (fun a b => strncmp w a b ≠ Ordering.eq)) :
    ∀ p ∈ arr.enum, ∀ q ∈ arr.enum, p.1 ≠ q.1 →
      strncmp w p.2 q.2 ≠ Ordering.eq := by
  rw [List.pairwise_iff_getElem] at hd
  intro p hp q hq hne
  obtain ⟨hpl, hpe⟩ := List.mem_enum
    (show (p.1, p.2) ∈ arr.enum by rwa [Prod.mk.eta])
  obtain ⟨hql, hqe⟩ := List.mem_enum
    (show (q.1, q.2) ∈ arr.enum by rwa [Prod.mk.eta])
  rcases Nat.lt_or_ge p.1 q.1 with h | h
  · have := hd p.1 q.1 hpl hql h
    rw [hpe, hqe]
    exact this
  · have hlt : q.1 < p.1 := by omega
    have hqp := hd q.1 p.1 hql hpl hlt
    intro hEq
    apply hqp
    have := (strncmp_eq_iff w p.2 q.2).mp hEq
    rwa [hpe, hqe] at this

theorem radix_sort_strings_asc (w : Nat) (arr : List (List Nat)) :
    List.Perm (radix_sort_strings Direction.ASCENDING w arr) arr ∧
    (radix_sort_strings Direction.ASCENDING w arr).Pairwise
      (fun a b => strncmp w a b ≠ Ordering.gt) := by
  have hrw : radix_sort_strings Direction.ASCENDING w arr =
      (stdSort (fun p q : Nat × List Nat => comparator w p.2 q.2) arr.enum).map
        Prod.snd := rfl
  have hperm :=
    stdSort_perm (fun p q : Nat × List Nat => comparator w p.2 q.2) arr.enum
  constructor
  · rw [hrw]
    have := hperm.map Prod.snd
    rwa [List.enum_map_snd] at this
  · have hpw := stdSort_pairwise
      (fun p q : Nat × List Nat => comparator w p.2 q.2) arr.enum
      (fun p _ q _ h => by
        rw [comparator_true_iff] at h
        rw [comparator_false_iff, strncmp_swap w p.2 q.2, h]
        simp [Ordering.swap])
      (fun p _ q _ r _ h1 h2 => by
        rw [comparator_true_iff] at h1 h2
        rw [comparator_true_iff]
        exact strncmp_lt_trans w _ _ _ h1 h2)
    rw [hrw, List.pairwise_map]
    refine hpw.imp ?_
    intro p q h
    rw [comparator_false_iff] at h
    intro hgt
    exact h ((strncmp_gt_iff w p.2 q.2).mp hgt)

theorem radix_sort_strings_desc (w : Nat) (arr : List (List Nat))
    (hd : arr.Pairwise (fun a b => strncmp w a b ≠ Ordering.eq)) :
    List.Perm (radix_sort_strings Direction.DESCENDING w arr) arr ∧
    (radix_sort_strings Direction.DESCENDING w arr).Pairwise
      (fun a b => strncmp w a b = Ordering.gt) := by
  have hrw : radix_sort_strings Direction.DESCENDING w arr =
      (stdSort (fun p q : Nat × List Nat => desc_comparator w p q) arr.enum).map
        Prod.snd := rfl
  have hd' := pairwise_strncmp_ne_enum hd
  have hgt : ∀ p ∈ arr.enum, ∀ q ∈ arr.enum, desc_comparator w p q = true →
      strncmp w p.2 q.2 = Ordering.gt := by
    intro p hp q hq h
    rw [desc_comparator_true_iff] at h
    have hne := hd' p hp q hq h.2
    cases hcase : strncmp w p.2 q.2 with
    | lt => exact absurd hcase h.1
    | eq => exact absurd hcase hne
    | gt => rfl
  have hperm :=
    stdSort_perm (fun p q : Nat × List Nat => desc_comparator w p q) arr.enum
  have hasym : ∀ p ∈ arr.enum, ∀ q ∈ arr.enum,
      desc_comparator w p q = true → desc_comparator w q p = false := by
    intro p hp q hq h
    have hg := hgt p hp q hq h
    have hlt : strncmp w q.2 p.2 = Ordering.lt := (strncmp_gt_iff w p.2 q.2).mp hg
    simp [desc_comparator, comparator, hlt]
  have htrans : ∀ p ∈ arr.enum, ∀ q ∈ arr.enum, ∀ r ∈ arr.enum,
      desc_comparator w p q = true → desc_comparator w q r = true →
      desc_comparator w p r = true := by
    intro p hp q hq r hr h1 h2
    have hg1 := hgt p hp q hq h1
    have hg2 := hgt q hq r hr h2
    have hg3 := strncmp_gt_trans w _ _ _ hg1 hg2
    rw [desc_comparator_true_iff]
    refine ⟨by rw [hg3]; simp, ?_⟩
    intro hfst
    have hsnd := enum_snd_eq_of_fst_eq hp hr hfst
    rw [← hsnd] at hg2
    have hq1 : strncmp w q.2 p.2 = Ordering.lt := (strncmp_gt_iff w p.2 q.2).mp hg1
    rw [hq1] at hg2
    exact absurd hg2 (by simp)
  have hpw := stdSort_pairwise
    (fun p q : Nat × List Nat => desc_comparator w p q) arr.enum hasym htrans
  have hfstne : arr.enum.Pairwise (fun p q : Nat × List Nat => p.1 ≠ q.1) :=
    (enum_pairwise_fst_lt arr).imp (fun h => Nat.ne_of_lt h)
  have hsortedne : (stdSort (fun p q : Nat × List Nat => desc_comparator w p q)
      arr.enum).Pairwise (fun p q => p.1 ≠ q.1) :=
    (hperm.pairwise_iff (fun h => Ne.symm h)).mpr hfstne
  have hcomb := hpw.and hsortedne
  constructor
  · rw [hrw]
    have := hperm.map Prod.snd
    rwa [List.enum_map_snd] at this
  · rw [hrw, List.pairwise_map]
    refine hcomb.imp ?_
    intro p q h
    obtain ⟨hf, hne⟩ := h
    have hnot : ¬ (strncmp w q.2 p.2 ≠ Ordering.lt ∧ q.1 ≠ p.1) := by
      rw [← desc_comparator_true_iff]
      simp [hf]
    have hlt : strncmp w q.2 p.2 = Ordering.lt := by
      by_contra hn
      exact hnot ⟨hn, fun h' => hne h'.symm⟩
    exact (strncmp_gt_iff w p.2 q.2).mpr hlt

theorem sort_msb_string_path (dir : Direction) (w : Nat) (arr : List (List Nat))
    (alloc_ok : Bool) (temp0 : List (List Nat)) (h : 2 ≤ arr.length) :
    sort DataType.UNSIGNED_OR_STRING ProcessingOrder.MSB_FIRST dir w (some arr)
      arr.length alloc_ok temp0 = (none, some (radix_sort_strings dir w arr)) := by
  have hn : ¬ (arr.length ≤ 1) := by omega
  simp [sort, hn, validate_data_type, pre_process_data]

/-! Claim theorems. -/

/-- C1 (code bug): the placement loop `for (size_t i = n; --i > 0;)` of
`counting_sort_byte` never runs for `i = 0`, so each pass places only `n - 1`
of the `n` records; concretely, sorting the two raw-byte records `[1]`, `[2]`
(with zeroed scratch storage) yields `[0]`, `[2]` — record `[1]` is lost and
the output is not a permutation of the input. -/
theorem c1_first_record_dropped :
    (∀ n : Nat, 0 ∉ placementIndices n) ∧
    (∀ n : Nat, (placementIndices n).length = n - 1) ∧
    sort DataType.UNSIGNED_OR_STRING ProcessingOrder.LSB_FIRST Direction.ASCENDING 1
      (some [[1], [2]]) 2 true [[0], [0]] = (none, some [[0], [2]]) ∧
    ¬ List.Perm [[0], [2]] [[(1 : Nat)], [2]] :=
  ⟨zero_not_mem_placementIndices, length_placementIndices, by decide, by decide⟩

/-- C2 (code bug): because the placement loop skips record 0, the buffer after
a successful Ascending sort need not be non-decreasing.  Signed one-byte
records `[1, 0]` come out as `[0, -128]` (bytes `[[0],[128]]`), and raw-byte
records `[[2],[1]]` come out as `[[1],[0]]`; neither is non-decreasing under
the type's natural order. -/
theorem c2_output_not_sorted :
    sort DataType.SIGNED_INTEGER ProcessingOrder.LSB_FIRST Direction.ASCENDING 1
      (some [[1], [0]]) 2 true [[0], [0]] = (none, some [[0], [128]]) ∧
    ¬ List.Pairwise (fun a b => specSignedValue 1 a ≤ specSignedValue 1 b)
        [[0], [128]] ∧
    sort DataType.UNSIGNED_OR_STRING ProcessingOrder.LSB_FIRST Direction.ASCENDING 1
      (some [[2], [1]]) 2 true [[0], [0]] = (none, some [[1], [0]]) ∧
    ¬ List.Pairwise (fun a b => specMemcmp 1 a b ≠ Ordering.gt) [[1], [0]] :=
  ⟨by decide, by decide, by decide, by decide⟩

/-- C3 (confirmed): for each numeric tag the forward/inverse bit transforms are
mutually inverse bijections on W-byte values, and transform-then-inverse
reproduces the exact original bit pattern: the signed-integer sign-bit flip is
an involution (hence bijective), the float/double transforms cancel in both
orders, stay within the 32/64-bit range, are injective and onto that range, and
acting on a whole 4-byte (resp. 8-byte) record returns the original bytes. -/
theorem c3_transform_inverse_bijective :
    (∀ r : List Nat, r.length = 4 → (∀ b ∈ r, b < 256) →
        float_record false (float_record true r) = r) ∧
    (∀ r : List Nat, r.length = 8 → (∀ b ∈ r, b < 256) →
        double_record false (double_record true r) = r) ∧
    (∀ (w : Nat) (r : List Nat), flip_msb_record w (flip_msb_record w r) = r) ∧
    (∀ w : Nat, Function.Bijective (flip_msb_record w)) ∧
    (∀ u : Nat, float_bits_transform false (float_bits_transform true u) = u ∧
        float_bits_transform true (float_bits_transform false u) = u) ∧
    (∀ u : Nat, double_bits_transform false (double_bits_transform true u) = u ∧
        double_bits_transform true (double_bits_transform false u) = u) ∧
    (∀ u : Nat, u < 2 ^ 32 → float_bits_transform true u < 2 ^ 32 ∧
        float_bits_transform false u < 2 ^ 32) ∧
    (∀ u : Nat, u < 2 ^ 64 → double_bits_transform true u < 2 ^ 64 ∧
        double_bits_transform false u < 2 ^ 64) ∧
    (∀ u v : Nat, float_bits_transform true u = float_bits_transform true v → u = v) ∧
    (∀ v : Nat, v < 2 ^ 32 → ∃ u : Nat, u < 2 ^ 32 ∧ float_bits_transform true u = v) ∧
    (∀ u v : Nat, double_bits_transform true u = double_bits_transform true v → u = v) ∧
    (∀ v : Nat, v < 2 ^ 64 → ∃ u : Nat, u < 2 ^ 64 ∧ double_bits_transform true u = v) := by
  refine ⟨float_record_roundtrip, double_record_roundtrip, flip_msb_record_involutive,
    fun w => (flip_msb_record_involutive w).bijective,
    float_bits_roundtrip, double_bits_roundtrip,
    fun u h => ⟨float_bits_lt true u h, float_bits_lt false u h⟩,
    fun u h => ⟨double_bits_lt true u h, double_bits_lt false u h⟩,
    ?_, ?_, ?_, ?_⟩
  · intro u v h
    calc u = float_bits_transform false (float_bits_transform true u) :=
          ((float_bits_roundtrip u).1).symm
      _ = float_bits_transform false (float_bits_transform true v) := by rw [h]
      _ = v := (float_bits_roundtrip v).1
  · intro v hv
    exact ⟨float_bits_transform false v, float_bits_lt false v hv,
      (float_bits_roundtrip v).2⟩
  · intro u v h
    calc u = double_bits_transform false (double_bits_transform true u) :=
          ((double_bits_roundtrip u).1).symm
      _ = double_bits_transform false (double_bits_transform true v) := by rw [h]
      _ = v := (double_bits_roundtrip v).1
  · intro v hv
    exact ⟨double_bits_transform false v, double_bits_lt false v hv,
      (double_bits_roundtrip v).2⟩

/-- C3 witness: transform-then-inverse on the concrete 4-byte record
`[1, 2, 3, 132]` (a negative float pattern) returns the record unchanged. -/
theorem c3_transform_inverse_bijective_witness :
    List.length [(1 : Nat), 2, 3, 132] = 4 ∧
    (∀ b ∈ [(1 : Nat), 2, 3, 132], b < 256) ∧
    float_record false (float_record true [1, 2, 3, 132]) = [1, 2, 3, 132] :=
  ⟨by decide, by decide,
    c3_transform_inverse_bijective.1 [1, 2, 3, 132] (by decide) (by decide)⟩

theorem validate_data_type_ne_null_pointer (dt : DataType) (w : Nat) :
    validate_data_type dt w ≠ some ErrorCode.NULL_POINTER := by
  cases dt with
  | UNSIGNED_OR_STRING => simp [validate_data_type]
  | SIGNED_INTEGER => simp [validate_data_type]
  | IEEE754_FLOAT => by_cases h : w = 4 <;> simp [validate_data_type, h]
  | IEEE754_DOUBLE => by_cases h : w = 8 <;> simp [validate_data_type, h]

/-- C4 (amended): sort fails with NULL_POINTER exactly when the buffer pointer
is null — the null check precedes every other check, so a null buffer fails for
every count `n` including `n = 0`, and a call with a non-null buffer never
raises NULL_POINTER for any count; a non-null buffer with `n ≤ 1` returns
immediately with no error and the buffer unchanged. -/
theorem c4_null_check_first :
    (∀ (dt : DataType) (ord : ProcessingOrder) (dir : Direction) (w n : Nat)
        (alloc_ok : Bool) (temp0 : List (List Nat)),
        sort dt ord dir w none n alloc_ok temp0 = (some ErrorCode.NULL_POINTER, none)) ∧
    (∀ (dt : DataType) (ord : ProcessingOrder) (dir : Direction) (w : Nat)
        (arr : List (List Nat)) (alloc_ok : Bool) (temp0 : List (List Nat)),
        arr.length ≤ 1 →
        sort dt ord dir w (some arr) arr.length alloc_ok temp0 = (none, some arr)) ∧
    (∀ (dt : DataType) (ord : ProcessingOrder) (dir : Direction) (w : Nat)
        (arr : List (List Nat)) (n : Nat) (alloc_ok : Bool)
        (temp0 : List (List Nat)),
        (sort dt ord dir w (some arr) n alloc_ok temp0).1 ≠
          some ErrorCode.NULL_POINTER) := by
  refine ⟨?_, ?_, ?_⟩
  · intro dt ord dir w n alloc_ok temp0
    rfl
  · intro dt ord dir w arr alloc_ok temp0 h
    simp [sort, h]
  · intro dt ord dir w arr n alloc_ok temp0
    by_cases hn : n ≤ 1
    · simp [sort, hn]
    · cases hv : validate_data_type dt w with
      | some e =>
          have hne := validate_data_type_ne_null_pointer dt w
          rw [hv] at hne
          simp only [sort, hv, if_neg hn]
          exact hne
      | none =>
          by_cases hstr : dt = DataType.UNSIGNED_OR_STRING ∧
              ord = ProcessingOrder.MSB_FIRST
          · obtain ⟨h1, h2⟩ := hstr
            subst h1
            subst h2
            simp [sort, hn, hv]
          · cases alloc_ok <;> simp [sort, hn, hv, hstr]

/-- C4 witness: a concrete one-element call is an error-free no-op. -/
theorem c4_null_check_first_witness :
    List.length [[(5 : Nat)]] ≤ 1 ∧
    sort DataType.SIGNED_INTEGER ProcessingOrder.LSB_FIRST Direction.ASCENDING 4
      (some [[5]]) (List.length [[(5 : Nat)]]) true [] = (none, some [[5]]) :=
  ⟨by decide,
    c4_null_check_first.2.1 DataType.SIGNED_INTEGER ProcessingOrder.LSB_FIRST
      Direction.ASCENDING 4 [[5]] true [] (by decide)⟩

/-- C4 counterexample: a null buffer with `n = 0` raises NULL_POINTER, while
the claim says a null buffer with `N = 0` is not an error. -/
theorem c4_counterexample_null_n_zero :
    (sort DataType.SIGNED_INTEGER ProcessingOrder.LSB_FIRST Direction.ASCENDING 4
        none 0 true []).1 = some ErrorCode.NULL_POINTER :=
  rfl

/-- C5 (amended): every validation failure (null pointer, element-size
mismatch) happens before any mutation and leaves the buffer unchanged; but the
scratch buffer is allocated only after `pre_process_data` has already
transformed the records, so an allocation failure surfaces with the buffer in
its pre-transformed state. -/
theorem c5_failed_calls :
    (∀ (dt : DataType) (ord : ProcessingOrder) (dir : Direction) (w n : Nat)
        (alloc_ok : Bool) (temp0 : List (List Nat)),
        sort dt ord dir w none n alloc_ok temp0 = (some ErrorCode.NULL_POINTER, none)) ∧
    (∀ (dt : DataType) (ord : ProcessingOrder) (dir : Direction) (w : Nat)
        (arr : List (List Nat)) (alloc_ok : Bool) (temp0 : List (List Nat))
        (e : ErrorCode), 2 ≤ arr.length → validate_data_type dt w = some e →
        sort dt ord dir w (some arr) arr.length alloc_ok temp0 = (some e, some arr)) ∧
    (∀ (dt : DataType) (ord : ProcessingOrder) (dir : Direction) (w : Nat)
        (arr : List (List Nat)) (temp0 : List (List Nat)),
        2 ≤ arr.length → validate_data_type dt w = none →
        ¬ (dt = DataType.UNSIGNED_OR_STRING ∧ ord = ProcessingOrder.MSB_FIRST) →
        sort dt ord dir w (some arr) arr.length false temp0 =
          (some ErrorCode.MEMORY_ALLOCATION, some (pre_process_data dt w arr).1)) := by
  refine ⟨?_, ?_, ?_⟩
  · intro dt ord dir w n alloc_ok temp0
    rfl
  · intro dt ord dir w arr alloc_ok temp0 e hlen hv
    have hn : ¬ (arr.length ≤ 1) := by omega
    simp [sort, hn, hv]
  · intro dt ord dir w arr temp0 hlen hv hstr
    have hn : ¬ (arr.length ≤ 1) := by omega
    simp [sort, hn, hv, hstr]

/-- C5 witness: a failing allocation on a concrete SIGNED_INTEGER call returns
MEMORY_ALLOCATION with the buffer already sign-bit-flipped. -/
theorem c5_failed_calls_witness :
    2 ≤ List.length [[(1 : Nat)], [2]] ∧
    sort DataType.SIGNED_INTEGER ProcessingOrder.LSB_FIRST Direction.ASCENDING 1
        (some [[1], [2]]) (List.length [[(1 : Nat)], [2]]) false [] =
      (some ErrorCode.MEMORY_ALLOCATION,
        some (pre_process_data DataType.SIGNED_INTEGER 1 [[1], [2]]).1) :=
  ⟨by decide,
    c5_failed_calls.2.2 DataType.SIGNED_INTEGER ProcessingOrder.LSB_FIRST
      Direction.ASCENDING 1 [[1], [2]] [] (by decide) (by decide) (by decide)⟩

/-- C5 counterexample: the failing-allocation call raises an error yet does not
leave the input `[[1],[2]]` unchanged (the buffer reads `[[129],[130]]`),
refuting the claim that every failing call leaves the buffer exactly as it
was. -/
theorem c5_counterexample_alloc_after_mutation :
    (sort DataType.SIGNED_INTEGER ProcessingOrder.LSB_FIRST Direction.ASCENDING 1
        (some [[1], [2]]) 2 false []).1 = some ErrorCode.MEMORY_ALLOCATION ∧
    (sort DataType.SIGNED_INTEGER ProcessingOrder.LSB_FIRST Direction.ASCENDING 1
        (some [[1], [2]]) 2 false []).2 ≠ some [[(1 : Nat)], [2]] :=
  ⟨by decide, by decide⟩

/-- C7 (confirmed): for every non-string data type the ProcessingOrder flag has
no observable effect; the source's two loop branches are identical, so LSB_FIRST
and MSB_FIRST calls return identical errors and identical final buffers. -/
theorem c7_processing_order_no_effect :
    ∀ dt : DataType, dt ≠ DataType.UNSIGNED_OR_STRING →
    ∀ (dir : Direction) (w : Nat) (input : Option (List (List Nat))) (n : Nat)
      (alloc_ok : Bool) (temp0 : List (List Nat)),
      sort dt ProcessingOrder.LSB_FIRST dir w input n alloc_ok temp0 =
        sort dt ProcessingOrder.MSB_FIRST dir w input n alloc_ok temp0 := by
  intro dt h dir w input n alloc_ok temp0
  cases input with
  | none => rfl
  | some arr => simp [sort, h, ite_self]

/-- C7 witness: a concrete SIGNED_INTEGER sort is order-flag independent. -/
theorem c7_processing_order_no_effect_witness :
    sort DataType.SIGNED_INTEGER ProcessingOrder.LSB_FIRST Direction.ASCENDING 1
      (some [[1], [0]]) 2 true [[0], [0]] =
      sort DataType.SIGNED_INTEGER ProcessingOrder.MSB_FIRST Direction.ASCENDING 1
        (some [[1], [0]]) 2 true [[0], [0]] :=
  c7_processing_order_no_effect DataType.SIGNED_INTEGER (by decide)
    Direction.ASCENDING 1 (some [[1], [0]]) 2 true [[0], [0]]

/-- C9 (confirmed): for UNSIGNED_OR_STRING with LSB_FIRST the Direction flag has
no effect: the comparator-based string path is not taken, no pass consults the
direction, and the final reversal is skipped for this data type, so Ascending
and Descending calls return identical results. -/
theorem c9_direction_no_effect_raw_lsb :
    ∀ (w : Nat) (input : Option (List (List Nat))) (n : Nat) (alloc_ok : Bool)
      (temp0 : List (List Nat)),
      sort DataType.UNSIGNED_OR_STRING ProcessingOrder.LSB_FIRST Direction.ASCENDING
        w input n alloc_ok temp0 =
      sort DataType.UNSIGNED_OR_STRING ProcessingOrder.LSB_FIRST Direction.DESCENDING
        w input n alloc_ok temp0 := by
  intro w input n alloc_ok temp0
  cases input with
  | none => rfl
  | some arr => simp [sort, pre_process_data]

/-- C8 (confirmed): `validate_data_type` rejects with INVALID_ELEMENT_SIZE
exactly the FLOAT calls whose element size differs from 4 and the DOUBLE calls
whose element size differs from 8, and never rejects SIGNED_INTEGER or
UNSIGNED_OR_STRING; consequently a sort call that reaches validation
(non-null, `n ≥ 2`) fails with INVALID_ELEMENT_SIZE iff the width is wrong. -/
theorem c8_size_mismatch_iff :
    (∀ w : Nat, validate_data_type DataType.IEEE754_FLOAT w =
        some ErrorCode.INVALID_ELEMENT_SIZE ↔ w ≠ 4) ∧
    (∀ w : Nat, validate_data_type DataType.IEEE754_DOUBLE w =
        some ErrorCode.INVALID_ELEMENT_SIZE ↔ w ≠ 8) ∧
    (∀ w : Nat, validate_data_type DataType.SIGNED_INTEGER w = none ∧
        validate_data_type DataType.UNSIGNED_OR_STRING w = none) ∧
    (∀ (ord : ProcessingOrder) (dir : Direction) (w : Nat) (arr : List (List Nat))
        (alloc_ok : Bool) (temp0 : List (List Nat)), 2 ≤ arr.length →
        ((sort DataType.IEEE754_FLOAT ord dir w (some arr) arr.length alloc_ok
            temp0).1 = some ErrorCode.INVALID_ELEMENT_SIZE ↔ w ≠ 4) ∧
        ((sort DataType.IEEE754_DOUBLE ord dir w (some arr) arr.length alloc_ok
            temp0).1 = some ErrorCode.INVALID_ELEMENT_SIZE ↔ w ≠ 8)) := by
  refine ⟨?_, ?_, ?_, ?_⟩
  · intro w
    by_cases h : w = 4 <;> simp [validate_data_type, h]
  · intro w
    by_cases h : w = 8 <;> simp [validate_data_type, h]
  · intro w
    exact ⟨rfl, rfl⟩
  · intro ord dir w arr alloc_ok temp0 hlen
    have hn : ¬ (arr.length ≤ 1) := by omega
    constructor
    · by_cases h : w = 4
      · subst h
        cases alloc_ok <;> simp [sort, validate_data_type, hn]
      · simp [sort, validate_data_type, h, hn]
    · by_cases h : w = 8
      · subst h
        cases alloc_ok <;> simp [sort, validate_data_type, hn]
      · simp [sort, validate_data_type, h, hn]

/-- C8 witness: a FLOAT sort with declared width 3 on a two-element buffer
fails with INVALID_ELEMENT_SIZE. -/
theorem c8_size_mismatch_iff_witness :
    2 ≤ List.length [[(0 : Nat)], [0]] ∧
    (sort DataType.IEEE754_FLOAT ProcessingOrder.LSB_FIRST Direction.ASCENDING 3
        (some [[0], [0]]) (List.length [[(0 : Nat)], [0]]) true []).1 =
      some ErrorCode.INVALID_ELEMENT_SIZE :=
  ⟨by decide,
    ((c8_size_mismatch_iff.2.2.2 ProcessingOrder.LSB_FIRST Direction.ASCENDING 3
        [[0], [0]] true [] (by decide)).1).mpr (by decide)⟩

/-- C6 (amended): the string path orders the fixed-stride records by the
`strncmp` comparison — unsigned byte-by-byte over at most the full stride but
stopping at the first zero byte, so bytes after an embedded zero byte are
ignored.  Ascending: the output is a permutation of the input that is
non-decreasing under `strncmp`.  Descending: the same holds (non-increasing,
here strictly decreasing) provided the records are pairwise `strncmp`-distinct
(with `strncmp`-equal records the descending comparator is not a strict weak
ordering and `std::sort`'s behaviour is undefined).  The sort entry point on
this path returns exactly `radix_sort_strings`'s result. -/
theorem c6_string_order_is_strncmp :
    ∀ (w : Nat) (arr : List (List Nat)),
    (List.Perm (radix_sort_strings Direction.ASCENDING w arr) arr ∧
      (radix_sort_strings Direction.ASCENDING w arr).Pairwise
        (fun a b => strncmp w a b ≠ Ordering.gt)) ∧
    (arr.Pairwise (fun a b => strncmp w a b ≠ Ordering.eq) →
      List.Perm (radix_sort_strings Direction.DESCENDING w arr) arr ∧
      (radix_sort_strings Direction.DESCENDING w arr).Pairwise
        (fun a b => strncmp w a b = Ordering.gt)) ∧
    (∀ (dir : Direction) (alloc_ok : Bool) (temp0 : List (List Nat)),
      2 ≤ arr.length →
      sort DataType.UNSIGNED_OR_STRING ProcessingOrder.MSB_FIRST dir w (some arr)
        arr.length alloc_ok temp0 = (none, some (radix_sort_strings dir w arr))) :=
  fun w arr =>
    ⟨radix_sort_strings_asc w arr, radix_sort_strings_desc w arr,
      fun dir alloc_ok temp0 h => sort_msb_string_path dir w arr alloc_ok temp0 h⟩

/-- C6 witness: on the concrete two-record buffer `[[2,0],[1,0]]` the
descending hypotheses hold and the theorem yields the descending permutation
and ordering, and the entry point returns the string sorter's result. -/
theorem c6_string_order_is_strncmp_witness :
    List.Pairwise (fun a b => strncmp 2 a b ≠ Ordering.eq) [[(2 : Nat), 0], [1, 0]] ∧
    List.Perm (radix_sort_strings Direction.DESCENDING 2 [[2, 0], [1, 0]])
      [[2, 0], [1, 0]] ∧
    (radix_sort_strings Direction.DESCENDING 2 [[2, 0], [1, 0]]).Pairwise
      (fun a b => strncmp 2 a b = Ordering.gt) ∧
    2 ≤ List.length [[(2 : Nat), 0], [1, 0]] ∧
    sort DataType.UNSIGNED_OR_STRING ProcessingOrder.MSB_FIRST Direction.ASCENDING 2
        (some [[2, 0], [1, 0]]) (List.length [[(2 : Nat), 0], [1, 0]]) true [] =
      (none, some (radix_sort_strings Direction.ASCENDING 2 [[2, 0], [1, 0]])) :=
  ⟨by decide,
    ((c6_string_order_is_strncmp 2 [[2, 0], [1, 0]]).2.1 (by decide)).1,
    ((c6_string_order_is_strncmp 2 [[2, 0], [1, 0]]).2.1 (by decide)).2,
    by decide,
    (c6_string_order_is_strncmp 2 [[2, 0], [1, 0]]).2.2 Direction.ASCENDING true []
      (by decide)⟩

/-- C6 counterexample: with an embedded zero byte, `strncmp` sees the records
`[97,0,98]` and `[97,0,99]` as equal (the ascending comparator returns false
both ways), although full-stride memcmp orders them strictly; sorting the
already-memcmp-sorted buffer `[[97,0,98],[97,0,99]]` ascending returns them in
an order that is not non-decreasing under the claimed full-stride byte
comparison. -/
theorem c6_counterexample_embedded_zero_byte :
    comparator 3 [97, 0, 98] [97, 0, 99] = false ∧
    comparator 3 [97, 0, 99] [97, 0, 98] = false ∧
    specMemcmp 3 [97, 0, 98] [97, 0, 99] = Ordering.lt ∧
    radix_sort_strings Direction.ASCENDING 3 [[97, 0, 98], [97, 0, 99]] =
      [[97, 0, 99], [97, 0, 98]] ∧
    ¬ (radix_sort_strings Direction.ASCENDING 3
        [[97, 0, 98], [97, 0, 99]]).Pairwise
        (fun a b => specMemcmp 3 a b ≠ Ordering.gt) :=
  ⟨by decide, by decide, by decide, by decide, by decide⟩

/-- C10 (confirmed): the descending comparator `!comparator(a,b) && a != b`
evaluates to true in both directions for any two pointers with distinct indices
but byte-equal records, so it is not asymmetric and hence not a strict weak
ordering, violating the precondition of `std::sort`. -/
theorem c10_desc_comparator_not_asymmetric :
    ∀ (w : Nat) (p q : Nat × List Nat), p.1 ≠ q.1 → p.2 = q.2 →
      desc_comparator w p q = true ∧ desc_comparator w q p = true := by
  intro w p q hne heq
  have h1 : strncmp w p.2 q.2 = Ordering.eq := by
    rw [heq]
    exact strncmp_refl w q.2
  have h2 : strncmp w q.2 p.2 = Ordering.eq := by
    rw [heq]
    exact strncmp_refl w q.2
  constructor
  · rw [desc_comparator_true_iff]
    exact ⟨by rw [h1]; simp, hne⟩
  · rw [desc_comparator_true_iff]
    exact ⟨by rw [h2]; simp, Ne.symm hne⟩

/-- C10 witness: the two distinct pointers `0` and `1` to byte-equal records
`[97,0]` make the descending comparator true in both directions. -/
theorem c10_desc_comparator_not_asymmetric_witness :
    (0 : Nat) ≠ 1 ∧
    desc_comparator 2 (0, [97, 0]) (1, [97, 0]) = true ∧
    desc_comparator 2 (1, [97, 0]) (0, [97, 0]) = true :=
  ⟨by decide,
    (c10_desc_comparator_not_asymmetric 2 (0, [97, 0]) (1, [97, 0])
      (by decide) rfl).1,
    (c10_desc_comparator_not_asymmetric 2 (0, [97, 0]) (1, [97, 0])
      (by decide) rfl).2⟩

end RadixSort
